import Mathlib

set_option maxRecDepth 100000

/-!
Verification of the video_apirest repository.

The development shallowly embeds the two modules the claims are about:

* `src/utils/hls.js` — the HLS conversion pipeline `convertToHls` together
  with its rendition planner, bandwidth computation, master-playlist builder
  and the directory helper `ensureDirExists`;
* `src/back.js` — the `BackblazeB2` client: `authorize`, `uploadFile`,
  the upload-history ledger (`_logUpload` / `getUploadHistory`) and
  `uploadDirectoryToB2`.

External effects (ffprobe, ffmpeg jobs, the filesystem, the remote B2 API)
are modelled by explicit environment records; the JavaScript `Map` used for
the upload history is modelled by an association list with `Map`-faithful
get/set/delete operations.  Async concurrency (`Promise.allSettled`,
`Promise.all` over a map) is modelled by its sequential linearization: each
rendition job / upload task owns a disjoint key, and the per-task outcomes
are collected in launch order exactly as the `results` arrays are.
-/

/-! ## Rendition planner (src/utils/hls.js, lines 104-133) -/

/-- One entry of `targetResolutions` in `convertToHls`. -/
structure Resolution where
  name : String
  size : String
  bitrate : String
  width : Nat
  height : Nat
  isOriginal : Bool
  deriving DecidableEq

/-- The configured `480p` table entry. -/
def s480 : Resolution := ⟨"480p", "854x480", "800k", 854, 480, false⟩

/-- The configured `720p` table entry. -/
def s720 : Resolution := ⟨"720p", "1280x720", "1500k", 1280, 720, false⟩

/-- The configured target-rendition table before filtering. -/
def standardTable : List Resolution := [s480, s720]

/-- `filter(res => res.width <= originalWidth && res.height <= originalHeight)`. -/
def filteredTable (W H : Nat) : List Resolution :=
  standardTable.filter (fun r => decide (r.width ≤ W) && decide (r.height ≤ H))

/-- `targetResolutions.some(res => res.height === originalHeight)`. -/
def alreadyIncluded (W H : Nat) : Bool :=
  (filteredTable W H).any (fun r => r.height == H)

/-- The rendition pushed for the source itself (`isOriginal: true`). -/
def originalRes (W H : Nat) (b : String) : Resolution :=
  ⟨toString H ++ "p", toString W ++ "x" ++ toString H, b, W, H, true⟩

/-- `targetResolutions` after the conditional push of the original rendition
(`if (!alreadyIncluded && originalWidth && originalHeight)`), before sorting.
JavaScript number truthiness makes the two dimension guards `≠ 0` tests. -/
def planInput (W H : Nat) (b : String) : List Resolution :=
  if alreadyIncluded W H = false ∧ W ≠ 0 ∧ H ≠ 0 then
    filteredTable W H ++ [originalRes W H b]
  else
    filteredTable W H

/-- The comparator `(a, b) => a.height - b.height`: ascending by height. -/
def heightLE (a b : Resolution) : Prop := a.height ≤ b.height

instance : DecidableRel heightLE := fun a b => Nat.decLe a.height b.height

instance : IsTotal Resolution heightLE := ⟨fun a b => Nat.le_total a.height b.height⟩

instance : IsTrans Resolution heightLE := ⟨fun _ _ _ => Nat.le_trans⟩

/-- `targetResolutions.sort((a, b) => a.height - b.height)`; JavaScript's
`Array.prototype.sort` is stable, which insertion sort by `heightLE` models. -/
def planResolutions (W H : Nat) (b : String) : List Resolution :=
  List.insertionSort heightLE (planInput W H b)

/-! ## Bandwidth computation (src/utils/hls.js, lines 146-151) -/

/-- `String.prototype.replace('k', '')` with a string pattern removes only the
first occurrence. -/
def removeFirstChar (c : Char) : List Char → List Char
  | [] => []
  | x :: xs => if x = c then xs else x :: removeFirstChar c xs

/-- Digit-run accumulator for `parseInt`. -/
def takeDigitsVal : List Char → Option Nat → Option Nat
  | [], acc => acc
  | x :: xs, acc =>
    if x.isDigit then
      takeDigitsVal xs (some (acc.getD 0 * 10 + (x.toNat - 48)))
    else acc

/-- `parseInt` on a character list: skip leading spaces, optional sign, then
the longest digit run; `none` models `NaN`.  (Radix prefixes never occur in
the bitrate strings this program builds.) -/
def jsParseIntChars (cs : List Char) : Option Int :=
  let cs := cs.dropWhile (fun c => c = ' ')
  match cs with
  | [] => none
  | c :: rest =>
    if c = '-' then (takeDigitsVal rest none).map (fun n => -(n : Int))
    else if c = '+' then (takeDigitsVal rest none).map (fun n => (n : Int))
    else (takeDigitsVal cs none).map (fun n => (n : Int))

/-- `let bandwidth = parseInt(String(res.bitrate).replace('k', '')) * 1000;
if (isNaN(bandwidth) || bandwidth <= 0) bandwidth = 500000;` -/
def bandwidthJS (bitrate : String) : Nat :=
  match jsParseIntChars (removeFirstChar 'k' bitrate.toList) with
  | none => 500000
  | some n => if n * 1000 ≤ 0 then 500000 else (n * 1000).toNat

/-- The `BANDWIDTH=` values of the stream-info lines, in emission order. -/
def planBandwidths (l : List Resolution) : List Nat :=
  l.map (fun r => bandwidthJS r.bitrate)

/-! ## Probe result and the original-bitrate string (lines 56-101) -/

/-- Outcome of the `ffprobe` section: stream width/height and the numeric
bitrate `parseInt(videoStream.bit_rate || metadata.format.bit_rate)`
(`none` models `NaN`). -/
structure ProbeData where
  width : Nat
  height : Nat
  bitRate : Option Nat
  deriving DecidableEq

/-- `Math.round(numericBitrate / 1000) + 'k'` when the numeric bitrate parsed
and is positive, otherwise the `'5000k'` default.  `Math.round` on a
non-negative rational is `⌊x + 1/2⌋`, i.e. `(n + 500) / 1000` here. -/
def originalBitrateStr (p : ProbeData) : String :=
  match p.bitRate with
  | some n => if 0 < n then toString ((n + 500) / 1000) ++ "k" else "5000k"
  | none => "5000k"

/-! ## Master playlist content (lines 136-163 and 265-269) -/

/-- Hex digit used by `encodeURIComponent` percent escapes (uppercase). -/
def hexDigitChar (n : Nat) : Char :=
  if n < 10 then Char.ofNat (48 + n) else Char.ofNat (55 + n)

/-- Bytes `encodeURIComponent` leaves unescaped. -/
def isUnreservedByte (n : Nat) : Bool :=
  (48 ≤ n && n ≤ 57) || (65 ≤ n && n ≤ 90) || (97 ≤ n && n ≤ 122) ||
  n == 45 || n == 95 || n == 46 || n == 33 || n == 126 || n == 42 ||
  n == 39 || n == 40 || n == 41

/-- Percent-encode one UTF-8 byte. -/
def encByte (n : Nat) : String :=
  if isUnreservedByte n then String.singleton (Char.ofNat n)
  else
    String.singleton (Char.ofNat 37) ++ String.singleton (hexDigitChar (n / 16))
      ++ String.singleton (hexDigitChar (n % 16))

/-- `encodeURIComponent`: percent-encode the UTF-8 bytes of the string,
keeping unreserved ASCII. -/
def encodeURIComponentM (s : String) : String :=
  String.join ((s.toList.flatMap String.utf8EncodeChar).map (fun b => encByte b.toNat))

/-- `'#EXTM3U\n#EXT-X-VERSION:3\n'`. -/
def m3u8Header : String := "#EXTM3U\n#EXT-X-VERSION:3\n"

/-- One `#EXT-X-STREAM-INF` line plus its playlist URL, as appended per
rendition; the authorization token (empty string models a missing token,
matching JavaScript truthiness) is appended as an encoded query parameter. -/
def streamEntry (videoId token : String) (r : Resolution) : String :=
  let url0 := videoId ++ "/" ++ r.name ++ "/playlist.m3u8"
  let url := if token == "" then url0
             else url0 ++ "?authorizationToken=" ++ encodeURIComponentM token
  "#EXT-X-STREAM-INF:PROGRAM-ID=1,BANDWIDTH=" ++ toString (bandwidthJS r.bitrate)
    ++ ",RESOLUTION=" ++ r.size ++ "\n" ++ url ++ "\n"

/-- `masterPlaylistContent` accumulated over the planned renditions. -/
def masterContent (videoId token : String) (plan : List Resolution) : String :=
  m3u8Header ++ String.join (plan.map (streamEntry videoId token))

/-- `endsWith` for a one-character suffix (the only shape this program uses):
true iff the last character is `c`. -/
def endsWithChar (s : String) (c : Char) : Bool :=
  match s.toList.getLast? with
  | some d => d == c
  | none => false

/-- `content.endsWith('\n') ? content : content + '\n'`. -/
def finalMasterContent (c : String) : String :=
  if endsWithChar c (Char.ofNat 10) then c else c ++ "\n"

/-! ## convertToHls (src/utils/hls.js, lines 40-291) -/

/-- `PROCESSED_DIR` relative to the project root. -/
def PROCESSED_DIR : String := "processed_videos"

/-- Public base URL used in the success value. -/
def backblazeBaseUrl : String := "https://f005.backblazeb2.com/file/cloud-video-store/"

/-- Environment for one `convertToHls` run: outcomes of the external effects.
`dirOk` is whether `ensureDirExists` succeeds for a path; `probe` is the
ffprobe section's outcome (`none` covers ffprobe errors, invalid metadata
and a missing video stream); `jobFails r` is whether the rendition job named
`r` settles rejected (covering both its own `ensureDirExists` failure and an
ffmpeg error event); `writeOk` is whether the `fs.writeFile` of the master
playlist succeeds. -/
structure HlsEnv where
  dirOk : String → Bool
  probe : Option ProbeData
  jobFails : String → Bool
  writeOk : Bool

/-- The resolve value of a successful run. -/
structure ConvertOk where
  message : String
  masterPlaylistUrl : String
  processedResolutions : List String
  deriving DecidableEq

/-- `convertToHls(inputPath, videoId, authorizationToken)`.  The first
component is the promise's outcome; the second is the master-manifest file
on disk after the run: `some content` iff `fs.writeFile(masterPlaylistPath,…)`
ran, `none` otherwise. -/
def convertToHls (env : HlsEnv) (inputPath videoId token : String) :
    Except String ConvertOk × Option String :=
  if inputPath = "" ∨ videoId = "" then
    (Except.error "Missing required arguments: inputPath and videoId.", none)
  else
    let outputDir := PROCESSED_DIR ++ "/" ++ videoId
    if env.dirOk outputDir = false then
      (Except.error ("Failed to ensure output directory exists: " ++ outputDir), none)
    else
      match env.probe with
      | none => (Except.error "Failed to get video metadata: ffprobe failed", none)
      | some p =>
        if p.width = 0 ∨ p.height = 0 then
          (Except.error "Failed to get video metadata: Could not determine original video dimensions.", none)
        else
          let plan := planResolutions p.width p.height (originalBitrateStr p)
          if plan.length = 0 then
            (Except.error "No suitable target resolutions to process.", none)
          else
            let content := masterContent videoId token plan
            let failedCount := (plan.filter (fun r => env.jobFails r.name)).length
            if 0 < failedCount then
              (Except.error ("HLS conversion failed for " ++ toString failedCount ++ " resolution(s)."), none)
            else if env.writeOk = false then
              (Except.error "master playlist write failed", none)
            else
              (Except.ok
                { message := "HLS conversion successful for " ++ toString plan.length ++ " resolution(s)."
                  masterPlaylistUrl := backblazeBaseUrl ++ videoId ++ "/master.m3u8"
                  processedResolutions := plan.map (fun r => r.name) },
               some (finalMasterContent content))

/-- Whether a promise outcome is a rejection. -/
def isError : Except String ConvertOk → Bool
  | Except.error _ => true
  | Except.ok _ => false

/-! ## ensureDirExists (src/utils/hls.js, lines 16-37) -/

/-- Filesystem model for `ensureDirExists`: the set of existing directories,
which paths `fs.stat` fails on with a non-`ENOENT` error (e.g. permissions),
and which `fs.mkdir` calls fail.  A missing path with `statFails` false is
the `ENOENT` case. -/
structure DirFS where
  dirs : List String
  statFails : String → Bool
  mkdirFails : String → Bool

/-- `ensureDirExists(dirPath)`: stat; on `ENOENT` create (recursively); on any
other stat error or a mkdir error, re-throw.  The second component records
whether a directory was created by this call. -/
def ensureDirExists (fs : DirFS) (p : String) : Except String (DirFS × Bool) :=
  if fs.statFails p then
    Except.error "Error checking directory"
  else if p ∈ fs.dirs then
    Except.ok (fs, false)
  else if fs.mkdirFails p then
    Except.error "Error creating directory"
  else
    Except.ok ({ fs with dirs := p :: fs.dirs }, true)

/-! ## Upload-history ledger (src/back.js, lines 31 and 191-205)

The `uploadHistory` field is a JavaScript `Map` from keys to arrays of log
entries; it is modelled by an association list with first-match get, in-place
set and delete, which is observationally `Map`-faithful (our operations never
create duplicate keys). -/

/-- One entry pushed by `_logUpload`: the success shape carries
`file`/`fileId`/`size`, the failure shape carries `file`/`error`; both carry
a timestamp string. -/
structure LogEntry where
  success : Bool
  file : String
  fileId : Option String
  size : Option Nat
  error : Option String
  timestamp : String
  deriving DecidableEq

/-- The ledger: `Map<string, LogEntry[]>`. -/
abbrev UploadHistory := List (String × List LogEntry)

/-- `Map.prototype.get` (first matching key; `none` models `undefined`). -/
def histGet : UploadHistory → String → Option (List LogEntry)
  | [], _ => none
  | kv :: t, k => if kv.1 == k then some kv.2 else histGet t k

/-- `Map.prototype.set`: replace in place, or append a new key. -/
def histSet : UploadHistory → String → List LogEntry → UploadHistory
  | [], k, v => [(k, v)]
  | kv :: t, k, v => if kv.1 == k then (k, v) :: t else kv :: histSet t k v

/-- `Map.prototype.delete`. -/
def histDelete : UploadHistory → String → UploadHistory
  | [], _ => []
  | kv :: t, k => if kv.1 == k then t else kv :: histDelete t k

/-- `_logUpload(key, logEntry)`: create the key with `[]` when absent, then
push the entry. -/
def logUpload (h : UploadHistory) (k : String) (e : LogEntry) : UploadHistory :=
  histSet h k (((histGet h k).getD []) ++ [e])

/-- `getUploadHistory(key)`: `this.uploadHistory.get(key)` — `undefined`
(here `none`) when the key was never recorded. -/
def getUploadHistory (h : UploadHistory) (k : String) : Option (List LogEntry) :=
  histGet h k

/-! ## BackblazeB2 client state and remote environment (src/back.js) -/

/-- The mutable instance state the claims depend on: the session token
(`''` models the falsy missing token of a fresh instance) and the ledger. -/
structure B2State where
  authorizationToken : String
  uploadHistory : UploadHistory
  deriving DecidableEq

/-- Remote/filesystem behaviour for one run.  `authOk`/`newToken` describe
`b2_authorize_account`; `getUploadUrlOk` (keyed by file name) describes the
upload-slot negotiation; `readOk` (keyed by local path) whether
`fs.readFileSync`/`statSync` succeed; `uploadOk` (keyed by file name) whether
the upload POST succeeds, with `uploadRejectedForAuth` tagging a failed
upload as an authorization rejection (the implementation never inspects the
failure kind, so this tag does not influence behaviour); `fileIdOf`/`sizeOf`
are the remote response fields; `errorText`/`now` the observed error message
and wall-clock strings. -/
structure B2Env where
  authOk : Bool
  newToken : String
  getUploadUrlOk : String → Bool
  readOk : String → Bool
  uploadOk : String → Bool
  uploadRejectedForAuth : String → Bool
  fileIdOf : String → String
  sizeOf : String → Nat
  errorText : String
  now : String

/-- `authorize()`: on success store the returned token and report `true`;
on failure leave the state unchanged and report `false` (the method catches
its own errors). -/
def authorize (env : B2Env) (st : B2State) : B2State × Bool :=
  if env.authOk then ({ st with authorizationToken := env.newToken }, true)
  else (st, false)

/-- The remote response recorded on a successful upload. -/
structure FileInfo where
  fileName : String
  fileId : String
  contentLength : Nat
  deriving DecidableEq

/-- The failure entry `_logUpload(fileName, {success:false, file, error, timestamp})`. -/
def failEntry (env : B2Env) (fileName : String) : LogEntry :=
  { success := false, file := fileName, fileId := none, size := none,
    error := some env.errorText, timestamp := env.now }

/-- The success entry `_logUpload(fileName, {success:true, file, fileId, size, timestamp})`. -/
def succEntry (env : B2Env) (fileName filePath : String) : LogEntry :=
  { success := true, file := fileName, fileId := some (env.fileIdOf fileName),
    size := some (env.sizeOf filePath), error := none, timestamp := env.now }

/-- Record a failure entry under the file-name key (the `catch` branch of
`uploadFile`). -/
def recordFail (env : B2Env) (st : B2State) (fileName : String) : B2State :=
  { st with uploadHistory := logUpload st.uploadHistory fileName (failEntry env fileName) }

/-- Result of one `uploadFile` call, instrumented with how many times
`authorize` ran and how many upload POSTs were attempted. -/
structure UploadResult where
  state : B2State
  result : Option FileInfo
  authorizeCalls : Nat
  uploadAttempts : Nat
  deriving DecidableEq

/-- The body of `uploadFile` after the lazy-authentication preamble:
slot negotiation, file read, then the upload POST; every failure is caught,
logged under the file-name key and turned into a `none` result. -/
def uploadFileBody (env : B2Env) (st : B2State) (fileName filePath : String)
    (aCalls : Nat) : UploadResult :=
  if env.getUploadUrlOk fileName = false then
    ⟨recordFail env st fileName, none, aCalls, 0⟩
  else if env.readOk filePath = false then
    ⟨recordFail env st fileName, none, aCalls, 0⟩
  else if env.uploadOk fileName = false then
    ⟨recordFail env st fileName, none, aCalls, 1⟩
  else
    ⟨{ st with uploadHistory :=
         logUpload st.uploadHistory fileName (succEntry env fileName filePath) },
     some ⟨fileName, env.fileIdOf fileName, env.sizeOf filePath⟩, aCalls, 1⟩

/-- `uploadFile(bucketId, fileName, filePath)` (lines 122-183): authenticate
only if no token is held (`if (!this.config.authorizationToken)`); when that
authentication fails, resolve `null` immediately — note: without recording
anything.  No branch re-authenticates or retries after a failure. -/
def uploadFile (env : B2Env) (st : B2State) (fileName filePath : String) : UploadResult :=
  if st.authorizationToken == "" then
    match authorize env st with
    | (st1, false) => ⟨st1, none, 1, 0⟩
    | (st1, true) => uploadFileBody env st1 fileName filePath 1
  else
    uploadFileBody env st fileName filePath 0

/-! ## uploadDirectoryToB2 (src/back.js, lines 239-289)

`_listFilesInDirRecursive` is a filesystem walk; its outcome — the list of
file paths relative to `localDirPath`, in traversal order — is taken as the
`relFiles` input.  The `Promise.all` over the mapped tasks is modelled by its
sequential linearization in array order (each task touches only its own
`b2FileName` key plus the shared prefix group, where only the append order
can vary). -/

/-- `b2Prefix.endsWith('/') ? b2Prefix : b2Prefix + '/'`. -/
def cleanPfx (p : String) : String := if endsWithChar p (Char.ofNat 47) then p else p ++ "/"

/-- `relativePath.replace(/\\/g, '/')` (a global regex: every backslash). -/
def normalizeSep (s : String) : String :=
  String.mk (s.toList.map (fun c => if c = '\\' then '/' else c))

/-- The remote key of one task: `cleanPrefix + relativePath with / separators`. -/
def b2NameOf (pfx rel : String) : String := cleanPfx pfx ++ normalizeSep rel

/-- The per-task element of `uploadResults`. -/
structure DirOutcome where
  success : Bool
  file : String
  localPath : String
  info : Option FileInfo
  deriving DecidableEq

/-- One task of the mapped array: upload, then on success migrate the last
per-file ledger entry into the prefix group (`get(b2FileName)?.pop()`, then
`_logUpload(b2Prefix, logEntry)`, then `delete(b2FileName)`); a `null`
result returns a failed outcome without touching the ledger further. -/
def dirUploadTask (env : B2Env) (st : B2State) (localDirPath pfx rel : String) :
    B2State × DirOutcome :=
  let b2FileName := b2NameOf pfx rel
  let localFilePath := localDirPath ++ "/" ++ rel
  let u := uploadFile env st b2FileName localFilePath
  match u.result with
  | none => (u.state, ⟨false, b2FileName, localFilePath, none⟩)
  | some info =>
    match histGet u.state.uploadHistory b2FileName with
    | none => (u.state, ⟨true, b2FileName, localFilePath, some info⟩)
    | some l =>
      match l.getLast? with
      | none => (u.state, ⟨true, b2FileName, localFilePath, some info⟩)
      | some e =>
        let h1 := histSet u.state.uploadHistory b2FileName l.dropLast
        let h2 := logUpload h1 pfx e
        let h3 := histDelete h2 b2FileName
        ({ u.state with uploadHistory := h3 }, ⟨true, b2FileName, localFilePath, some info⟩)

/-- The mapped tasks, linearized in array order, collecting `uploadResults`. -/
def uploadDirGo (env : B2Env) (localDirPath pfx : String) :
    B2State → List String → B2State × List DirOutcome
  | st, [] => (st, [])
  | st, rel :: rest =>
    let step := dirUploadTask env st localDirPath pfx rel
    let next := uploadDirGo env localDirPath pfx step.1 rest
    (next.1, step.2 :: next.2)

/-- The object returned by `uploadDirectoryToB2`. -/
structure SyncResult where
  success : Bool
  successfulUploads : List (String × Option FileInfo)
  failedUploads : List (String × String)
  history : Option (List LogEntry)
  deriving DecidableEq

/-- `uploadDirectoryToB2(bucketId, localDirPath, b2Prefix)`: run every task,
partition `uploadResults` into successes and failures, and return
`{success: failedUploads.length === 0, …, history: getUploadHistory(b2Prefix)}`. -/
def uploadDirectoryToB2 (env : B2Env) (st : B2State) (localDirPath : String)
    (relFiles : List String) (pfx : String) : B2State × SyncResult :=
  let r := uploadDirGo env localDirPath pfx st relFiles
  let successfulUploads := (r.2.filter (fun o => o.success)).map (fun o => (o.file, o.info))
  let failedUploads := (r.2.filter (fun o => !o.success)).map (fun o => (o.file, o.localPath))
  (r.1,
   { success := failedUploads.length == 0
     successfulUploads := successfulUploads
     failedUploads := failedUploads
     history := getUploadHistory r.1.uploadHistory pfx })

/-! ## Concrete scenarios used by witnesses and counterexamples -/

/-- 1920x1080 source at 5 Mbps; every external step succeeds except the
`720p` rendition job. -/
def hlsEnvJobFail : HlsEnv :=
  { dirOk := fun _ => true
    probe := some ⟨1920, 1080, some 5000000⟩
    jobFails := fun n => n == "720p"
    writeOk := true }

/-- 1920x1080 source at 100 kbps (below both configured bitrates); every
external step succeeds. -/
def hlsEnvLowBitrate : HlsEnv :=
  { dirOk := fun _ => true
    probe := some ⟨1920, 1080, some 100000⟩
    jobFails := fun _ => false
    writeOk := true }

/-- A healthy remote: authentication and every remote step succeed except
that the upload POST for `v123/c` fails with a network error. -/
def b2EnvOneFail : B2Env :=
  { authOk := true
    newToken := "tok"
    getUploadUrlOk := fun _ => true
    readOk := fun _ => true
    uploadOk := fun n => !(n == "v123/c")
    uploadRejectedForAuth := fun _ => false
    fileIdOf := fun _ => "id"
    sizeOf := fun _ => 7
    errorText := "neterr"
    now := "t0" }

/-- A fully healthy remote. -/
def b2EnvAllOk : B2Env := { b2EnvOneFail with uploadOk := fun _ => true }

/-- A remote that rejects every upload POST for authorization (as after a
token expiry): the session is rejected at the upload step. -/
def b2EnvAuthReject : B2Env :=
  { b2EnvOneFail with
      uploadOk := fun _ => false
      uploadRejectedForAuth := fun _ => true
      errorText := "401 unauthorized" }

/-- A remote on which `b2_authorize_account` itself fails. -/
def b2EnvAuthDown : B2Env := { b2EnvOneFail with authOk := false }

/-- A client instance that already holds a session token and has an empty
ledger. -/
def stWithToken : B2State := { authorizationToken := "tk", uploadHistory := [] }

/-- A fresh client instance: no token, empty ledger. -/
def stFresh : B2State := { authorizationToken := "", uploadHistory := [] }

/-- An entry recorded by an earlier individual `uploadFile` of `v/a.ts`. -/
def oldEntry : LogEntry :=
  { success := true, file := "old", fileId := some "oldid", size := some 3,
    error := none, timestamp := "tm" }

/-- A client instance whose ledger already holds `oldEntry` under the key
`v/a.ts`. -/
def stWithOldEntry : B2State :=
  { authorizationToken := "tk", uploadHistory := [("v/a.ts", [oldEntry])] }

/-- An idle filesystem: no directories, no stat or mkdir errors. -/
def dirFS0 : DirFS := ⟨[], fun _ => false, fun _ => false⟩

/-- `dirFS0` after `d` has been created. -/
def dirFS1 : DirFS := ⟨["d"], fun _ => false, fun _ => false⟩

/-! # Helper lemmas -/

/-! ## Planner lemmas -/

theorem mem_planInput {W H : Nat} {b : String} {r : Resolution}
    (h : r ∈ planInput W H b) :
    r ∈ filteredTable W H ∨ r = originalRes W H b := by
  unfold planInput at h
  split at h
  · rcases List.mem_append.mp h with h1 | h1
    · exact Or.inl h1
    · exact Or.inr (List.mem_singleton.mp h1)
  · exact Or.inl h

theorem mem_filteredTable_dims {W H : Nat} {r : Resolution}
    (h : r ∈ filteredTable W H) : r.width ≤ W ∧ r.height ≤ H := by
  have h' := (List.mem_filter.mp h).2
  rcases Bool.and_eq_true _ _ |>.mp h' with ⟨hw, hh⟩
  exact ⟨of_decide_eq_true hw, of_decide_eq_true hh⟩

theorem mem_filteredTable_not_original {W H : Nat} {r : Resolution}
    (h : r ∈ filteredTable W H) : r.isOriginal = false := by
  have h' := (List.mem_filter.mp h).1
  simp only [standardTable, List.mem_cons, List.mem_singleton, List.not_mem_nil, or_false] at h'
  rcases h' with rfl | rfl
  · rfl
  · rfl

theorem countP_filteredTable (W H : Nat) :
    (filteredTable W H).countP (fun r => r.isOriginal) = 0 := by
  apply List.countP_eq_zero.mpr
  intro a ha
  simp [mem_filteredTable_not_original ha]

/-! # Claim theorems -/

/-- C8: for every probed source with positive width W and height H, the
planned rendition set contains no entry whose target height exceeds H and no
entry whose target width exceeds W — no rendition is upscaled above the
source's dimensions. -/
theorem planResolutions_no_upscale (W H : Nat) (b : String)
    (hW : 0 < W) (hH : 0 < H) :
    ∀ r ∈ planResolutions W H b, r.width ≤ W ∧ r.height ≤ H := by
  intro r hr
  have hr' : r ∈ planInput W H b := (List.mem_insertionSort heightLE).mp hr
  rcases mem_planInput hr' with h | h
  · exact mem_filteredTable_dims h
  · rw [h]; exact ⟨Nat.le_refl W, Nat.le_refl H⟩

/-- C8 witness: a 1920x1080 probe; the 480p entry is planned and within the
source dimensions. -/
theorem planResolutions_no_upscale_witness :
    (0 < 1920 ∧ 0 < 1080) ∧ s480.width ≤ 1920 ∧ s480.height ≤ 1080 :=
  ⟨by decide,
   planResolutions_no_upscale 1920 1080 "5000k" (by decide) (by decide) s480 (by decide)⟩

/-- C3 counterexample: a valid 1280x720 probe (its bitrate string is
`"4000k"`) coincides with the configured 720p entry; the planned set then
contains no entry at all with the source-copy flag — not exactly one. -/
theorem planResolutions_sourceCopy_cex :
    (0 < 1280 ∧ 0 < 720) ∧
    originalBitrateStr ⟨1280, 720, some 4000000⟩ = "4000k" ∧
    ¬ (planResolutions 1280 720 "4000k").countP (fun r => r.isOriginal) = 1 := by
  decide

/-- C3 amended: when the source height differs from every retained configured
entry's height, exactly one planned entry carries `isOriginal` and its target
size is the source size; when the source height coincides with a retained
entry's height, no planned entry carries the flag. -/
theorem planResolutions_sourceCopy (W H : Nat) (b : String)
    (hW : 0 < W) (hH : 0 < H) :
    (alreadyIncluded W H = false →
      (planResolutions W H b).countP (fun r => r.isOriginal) = 1 ∧
      ∀ r ∈ planResolutions W H b, r.isOriginal = true → r.width = W ∧ r.height = H) ∧
    (alreadyIncluded W H = true →
      (planResolutions W H b).countP (fun r => r.isOriginal) = 0) := by
  have hperm := List.perm_insertionSort heightLE (planInput W H b)
  unfold planResolutions
  constructor
  · intro hA
    have hin : planInput W H b = filteredTable W H ++ [originalRes W H b] := by
      unfold planInput
      rw [if_pos ⟨hA, Nat.pos_iff_ne_zero.mp hW, Nat.pos_iff_ne_zero.mp hH⟩]
    constructor
    · rw [hperm.countP_eq, hin, List.countP_append, countP_filteredTable]
      rfl
    · intro r hr hro
      have hr' : r ∈ planInput W H b := (List.mem_insertionSort heightLE).mp hr
      rw [hin] at hr'
      rcases List.mem_append.mp hr' with h1 | h1
      · exact absurd hro (by simp [mem_filteredTable_not_original h1])
      · rw [List.mem_singleton.mp h1]; exact ⟨rfl, rfl⟩
  · intro hA
    have hin : planInput W H b = filteredTable W H := by
      unfold planInput
      rw [if_neg (by simp [hA])]
    rw [hperm.countP_eq, hin]
    exact countP_filteredTable W H

/-- C3 witness: a 1920x1080 probe whose height coincides with no configured
entry; the planned set has exactly one source-copy entry. -/
theorem planResolutions_sourceCopy_witness :
    (planResolutions 1920 1080 "5000k").countP (fun r => r.isOriginal) = 1 :=
  ((planResolutions_sourceCopy 1920 1080 "5000k" (by decide) (by decide)).1 (by decide)).1

/-- C9: `ensureDirExists` is idempotent — after any successful call, a second
call on the same path finds the directory, creates nothing, never errors and
leaves the filesystem unchanged. -/
theorem ensureDirExists_idempotent (fs fs' : DirFS) (p : String) (b : Bool)
    (h : ensureDirExists fs p = Except.ok (fs', b)) :
    ensureDirExists fs' p = Except.ok (fs', false) := by
  unfold ensureDirExists at h ⊢
  split_ifs at h with h1 h2 h3
  · injection h with h'
    injection h' with ha hb
    subst ha; subst hb
    simp [h1, h2]
  · injection h with h'
    injection h' with ha hb
    subst ha; subst hb
    simp [h1]

/-- C9 witness: create `d` on an idle filesystem, then call again. -/
theorem ensureDirExists_idempotent_witness :
    ensureDirExists dirFS1 "d" = Except.ok (dirFS1, false) :=
  ensureDirExists_idempotent dirFS0 dirFS1 "d" true rfl

/-! ## Case analysis of the filtered table and the sorted plan (for C2) -/

theorem bandwidth_800k : bandwidthJS "800k" = 800000 := by decide

theorem bandwidth_1500k : bandwidthJS "1500k" = 1500000 := by decide

theorem filteredTable_none {W H : Nat} (h4 : ¬ (854 ≤ W ∧ 480 ≤ H))
    (h7 : ¬ (1280 ≤ W ∧ 720 ≤ H)) : filteredTable W H = [] := by
  simp [filteredTable, standardTable, s480, s720, List.filter_cons, h4, h7]

theorem filteredTable_one {W H : Nat} (hw : 854 ≤ W) (hh : 480 ≤ H)
    (h7 : ¬ (1280 ≤ W ∧ 720 ≤ H)) : filteredTable W H = [s480] := by
  simp [filteredTable, standardTable, s480, s720, List.filter_cons, hw, hh, h7]

theorem filteredTable_both {W H : Nat} (hw : 1280 ≤ W) (hh : 720 ≤ H) :
    filteredTable W H = [s480, s720] := by
  have hw4 : 854 ≤ W := by omega
  have hh4 : 480 ≤ H := by omega
  simp [filteredTable, standardTable, s480, s720, List.filter_cons, hw, hh, hw4, hh4]

theorem insertionSort_single (a : Resolution) :
    List.insertionSort heightLE [a] = [a] := rfl

theorem insertionSort_pair {a b : Resolution} (h : a.height ≤ b.height) :
    List.insertionSort heightLE [a, b] = [a, b] := by
  simp [List.insertionSort, List.orderedInsert, heightLE, h]

theorem insertionSort_triple {a b c : Resolution}
    (hab : a.height ≤ b.height) (hbc : b.height ≤ c.height) :
    List.insertionSort heightLE [a, b, c] = [a, b, c] := by
  simp [List.insertionSort, List.orderedInsert, heightLE, hab, hbc]

/-- C2 amended: the builder orders stream entries ascending by height (that is
the comparator the code sorts with), not by bandwidth; the emitted BANDWIDTH
sequence is therefore non-decreasing provided the source rendition's
bandwidth is at least the largest configured bandwidth (1500000). -/
theorem planResolutions_bandwidth_order (W H : Nat) (b : String) :
    List.Sorted heightLE (planResolutions W H b) ∧
    (1500000 ≤ bandwidthJS b →
      List.Chain' (fun x y => x ≤ y) (planBandwidths (planResolutions W H b))) := by
  constructor
  · exact List.sorted_insertionSort heightLE (planInput W H b)
  · intro hb
    unfold planResolutions
    by_cases h7 : 1280 ≤ W ∧ 720 ≤ H
    · have hft := filteredTable_both h7.1 h7.2
      by_cases hH : H = 720
      · have hA : alreadyIncluded W H = true := by
          unfold alreadyIncluded
          rw [hft]
          simp [s480, s720, hH]
        have hin : planInput W H b = [s480, s720] := by
          unfold planInput
          rw [if_neg (by simp [hA]), hft]
        rw [hin, insertionSort_pair (by decide)]
        simp [planBandwidths, s480, s720, bandwidth_800k, bandwidth_1500k,
          List.chain'_cons, List.chain'_singleton]
      · have hA : alreadyIncluded W H = false := by
          simp [alreadyIncluded, hft, s480, s720]
          omega
        have hin : planInput W H b = [s480, s720, originalRes W H b] := by
          unfold planInput
          rw [if_pos ⟨hA, by omega, by omega⟩, hft]
          rfl
        rw [hin, insertionSort_triple (by decide)
          (by simp [s720, originalRes]; omega)]
        simp [planBandwidths, s480, s720, originalRes, bandwidth_800k, bandwidth_1500k,
          List.chain'_cons, List.chain'_singleton]
        exact hb
    · by_cases h4 : 854 ≤ W ∧ 480 ≤ H
      · have hft := filteredTable_one h4.1 h4.2 h7
        by_cases hH : H = 480
        · have hA : alreadyIncluded W H = true := by
            unfold alreadyIncluded
            rw [hft]
            simp [s480, hH]
          have hin : planInput W H b = [s480] := by
            unfold planInput
            rw [if_neg (by simp [hA]), hft]
          rw [hin, insertionSort_single]
          simp [planBandwidths, List.chain'_singleton]
        · have hA : alreadyIncluded W H = false := by
            simp [alreadyIncluded, hft, s480]
            omega
          have hin : planInput W H b = [s480, originalRes W H b] := by
            unfold planInput
            rw [if_pos ⟨hA, by omega, by omega⟩, hft]
            rfl
          rw [hin, insertionSort_pair (by simp [s480, originalRes]; omega)]
          simp [planBandwidths, s480, originalRes, bandwidth_800k,
            List.chain'_cons, List.chain'_singleton]
          omega
      · have hft := filteredTable_none h4 h7
        have hA : alreadyIncluded W H = false := by
          simp [alreadyIncluded, hft]
        by_cases hWH : W ≠ 0 ∧ H ≠ 0
        · have hin : planInput W H b = [originalRes W H b] := by
            unfold planInput
            rw [if_pos ⟨hA, hWH.1, hWH.2⟩, hft]
            rfl
          rw [hin, insertionSort_single]
          simp [planBandwidths, List.chain'_singleton]
        · have hin : planInput W H b = [] := by
            unfold planInput
            rw [if_neg (by tauto), hft]
          rw [hin]
          simp [planBandwidths, List.insertionSort]

/-- C2 witness: a 1920x1080 source at 5 Mbps; the emitted bandwidth sequence
is non-decreasing. -/
theorem planResolutions_bandwidth_order_witness :
    List.Chain' (fun x y => x ≤ y) (planBandwidths (planResolutions 1920 1080 "5000k")) :=
  (planResolutions_bandwidth_order 1920 1080 "5000k").2 (by decide)

/-- C2 counterexample: a fully successful run over a 1920x1080 source whose
bitrate is 100 kbps — below both configured bitrates.  The manifest is
written, its bandwidth values are emitted as `[800000, 1500000, 100000]`
(ascending by height puts the 100000-bandwidth source rendition last), and
that sequence is not non-decreasing. -/
theorem planResolutions_bandwidth_cex :
    (convertToHls hlsEnvLowBitrate "in.mp4" "vid" "").2.isSome = true ∧
    originalBitrateStr ⟨1920, 1080, some 100000⟩ = "100k" ∧
    planBandwidths (planResolutions 1920 1080 "100k") = [800000, 1500000, 100000] ∧
    ¬ List.Chain' (fun x y => x ≤ y) (planBandwidths (planResolutions 1920 1080 "100k")) := by
  refine ⟨by decide, by decide, by decide, ?_⟩
  rw [show planBandwidths (planResolutions 1920 1080 "100k")
      = [800000, 1500000, 100000] from by decide]
  simp [List.chain'_cons, List.chain'_singleton]

/-- C1: if the run reaches the job stage and at least one rendition job
settles rejected, `convertToHls` rejects and no master manifest is written:
the `fs.writeFile` of the master playlist is gated on every settled job
having succeeded. -/
theorem convertToHls_jobFailure (env : HlsEnv) (inputPath videoId token : String)
    (p : ProbeData)
    (hinp : ¬ inputPath = "") (hvid : ¬ videoId = "")
    (hdir : env.dirOk (PROCESSED_DIR ++ "/" ++ videoId) = true)
    (hp : env.probe = some p) (hpw : ¬ p.width = 0) (hph : ¬ p.height = 0)
    (hfail : ∃ r ∈ planResolutions p.width p.height (originalBitrateStr p),
        env.jobFails r.name = true) :
    isError (convertToHls env inputPath videoId token).1 = true ∧
    (convertToHls env inputPath videoId token).2 = none := by
  obtain ⟨r, hr, hjf⟩ := hfail
  have hfpos : 0 < ((planResolutions p.width p.height (originalBitrateStr p)).filter
      (fun r => env.jobFails r.name)).length :=
    List.length_pos_of_mem (List.mem_filter.mpr ⟨hr, hjf⟩)
  have hppos : ¬ (planResolutions p.width p.height (originalBitrateStr p)).length = 0 := by
    have := List.length_pos_of_mem hr
    omega
  simp only [convertToHls, hp]
  split_ifs with h1 h2 h3
  · exact absurd h1 (by tauto)
  · exact absurd (hdir ▸ h2) (by simp)
  · exact absurd h3 (by tauto)
  · exact ⟨rfl, rfl⟩

/-- C1 witness: a 1920x1080 probe whose `720p` job fails; the run rejects and
the manifest is absent. -/
theorem convertToHls_jobFailure_witness :
    isError (convertToHls hlsEnvJobFail "in.mp4" "vid" "").1 = true ∧
    (convertToHls hlsEnvJobFail "in.mp4" "vid" "").2 = none :=
  convertToHls_jobFailure hlsEnvJobFail "in.mp4" "vid" "" ⟨1920, 1080, some 5000000⟩
    (by decide) (by decide) (by decide) (by decide) (by decide) (by decide)
    ⟨s720, by decide, by decide⟩

/-! ## Ledger lemmas (per-key behaviour of the Map operations) -/

theorem histGet_histSet_self (h : UploadHistory) (k : String) (v : List LogEntry) :
    histGet (histSet h k v) k = some v := by
  induction h with
  | nil => simp [histSet, histGet]
  | cons kv t ih =>
    by_cases hk : kv.1 == k
    · simp [histSet, histGet, hk]
    · simp [histSet, histGet, hk, ih]

theorem histGet_histSet_ne (h : UploadHistory) (k : String) (v : List LogEntry)
    (q : String) (hne : ¬ q = k) :
    histGet (histSet h k v) q = histGet h q := by
  have hne' : ¬ k = q := fun hh => hne hh.symm
  induction h with
  | nil => simp [histSet, histGet, hne']
  | cons kv t ih =>
    by_cases hk : kv.1 = k
    · simp [histSet, histGet, hk, hne']
    · by_cases hq : kv.1 = q
      · simp [histSet, histGet, hk, hq, hne]
      · simp [histSet, histGet, hk, hq, ih]

theorem histGet_histDelete_ne (h : UploadHistory) (k : String)
    (q : String) (hne : ¬ q = k) :
    histGet (histDelete h k) q = histGet h q := by
  have hne' : ¬ k = q := fun hh => hne hh.symm
  induction h with
  | nil => simp [histDelete]
  | cons kv t ih =>
    by_cases hk : kv.1 = k
    · simp [histDelete, histGet, hk, hne']
    · by_cases hq : kv.1 = q
      · simp [histDelete, histGet, hk, hq, hne]
      · simp [histDelete, histGet, hk, hq, ih]

theorem histGet_logUpload_self (h : UploadHistory) (k : String) (e : LogEntry) :
    histGet (logUpload h k e) k = some ((histGet h k).getD [] ++ [e]) :=
  histGet_histSet_self h k _

theorem histGet_logUpload_ne (h : UploadHistory) (k : String) (e : LogEntry)
    (q : String) (hne : ¬ q = k) :
    histGet (logUpload h k e) q = histGet h q :=
  histGet_histSet_ne h k _ q hne

/-! ## uploadFile lemmas -/

theorem uploadFile_eq_noAuth (env : B2Env) (st : B2State) (f p : String)
    (htk : st.authorizationToken = "") (hao : env.authOk = false) :
    uploadFile env st f p = ⟨st, none, 1, 0⟩ := by
  unfold uploadFile authorize
  simp [htk, hao]

theorem uploadFile_eq_freshAuth (env : B2Env) (st : B2State) (f p : String)
    (htk : st.authorizationToken = "") (hao : env.authOk = true) :
    uploadFile env st f p
      = uploadFileBody env { st with authorizationToken := env.newToken } f p 1 := by
  unfold uploadFile authorize
  simp [htk, hao]

theorem uploadFile_eq_hasToken (env : B2Env) (st : B2State) (f p : String)
    (htk : ¬ st.authorizationToken = "") :
    uploadFile env st f p = uploadFileBody env st f p 0 := by
  unfold uploadFile
  simp [htk]

theorem uploadFileBody_authorizeCalls (env : B2Env) (st : B2State) (f p : String) (a : Nat) :
    (uploadFileBody env st f p a).authorizeCalls = a := by
  unfold uploadFileBody
  split_ifs <;> rfl

theorem uploadFileBody_attempts_le (env : B2Env) (st : B2State) (f p : String) (a : Nat) :
    (uploadFileBody env st f p a).uploadAttempts ≤ 1 := by
  unfold uploadFileBody
  split_ifs <;> simp

theorem uploadFileBody_hist_ne (env : B2Env) (st : B2State) (f p : String) (a : Nat)
    (q : String) (hne : ¬ q = f) :
    histGet (uploadFileBody env st f p a).state.uploadHistory q
      = histGet st.uploadHistory q := by
  unfold uploadFileBody recordFail
  split_ifs <;> simp [histGet_logUpload_ne _ _ _ _ hne]

theorem uploadFileBody_cases (env : B2Env) (st : B2State) (f p : String) (a : Nat) :
    ((uploadFileBody env st f p a).result = none ∧
      histGet (uploadFileBody env st f p a).state.uploadHistory f
        = some (((histGet st.uploadHistory f).getD []) ++ [failEntry env f])) ∨
    ((uploadFileBody env st f p a).result = some ⟨f, env.fileIdOf f, env.sizeOf p⟩ ∧
      histGet (uploadFileBody env st f p a).state.uploadHistory f
        = some (((histGet st.uploadHistory f).getD []) ++ [succEntry env f p])) := by
  unfold uploadFileBody recordFail
  split_ifs <;> simp [histGet_logUpload_self]

theorem uploadFileBody_some_hist (env : B2Env) (st : B2State) (f p : String) (a : Nat)
    (h : (uploadFileBody env st f p a).result.isSome = true) :
    histGet (uploadFileBody env st f p a).state.uploadHistory f
      = some (((histGet st.uploadHistory f).getD []) ++ [succEntry env f p]) := by
  rcases uploadFileBody_cases env st f p a with ⟨hr, _⟩ | ⟨_, hh⟩
  · rw [hr] at h
    simp at h
  · exact hh

theorem uploadFileBody_none_hist (env : B2Env) (st : B2State) (f p : String) (a : Nat)
    (h : (uploadFileBody env st f p a).result = none) :
    histGet (uploadFileBody env st f p a).state.uploadHistory f
      = some (((histGet st.uploadHistory f).getD []) ++ [failEntry env f]) := by
  rcases uploadFileBody_cases env st f p a with ⟨_, hh⟩ | ⟨hr, _⟩
  · exact hh
  · rw [hr] at h
    simp at h

theorem uploadFile_hist_ne (env : B2Env) (st : B2State) (f p : String)
    (q : String) (hne : ¬ q = f) :
    histGet (uploadFile env st f p).state.uploadHistory q
      = histGet st.uploadHistory q := by
  by_cases htk : st.authorizationToken = ""
  · by_cases hao : env.authOk = true
    · rw [uploadFile_eq_freshAuth env st f p htk hao]
      exact uploadFileBody_hist_ne env _ f p 1 q hne
    · rw [uploadFile_eq_noAuth env st f p htk (by simpa using hao)]
  · rw [uploadFile_eq_hasToken env st f p htk]
    exact uploadFileBody_hist_ne env st f p 0 q hne

theorem uploadFile_some_hist (env : B2Env) (st : B2State) (f p : String)
    (h : (uploadFile env st f p).result.isSome = true) :
    histGet (uploadFile env st f p).state.uploadHistory f
      = some (((histGet st.uploadHistory f).getD []) ++ [succEntry env f p]) := by
  by_cases htk : st.authorizationToken = ""
  · by_cases hao : env.authOk = true
    · rw [uploadFile_eq_freshAuth env st f p htk hao] at h ⊢
      exact uploadFileBody_some_hist env _ f p 1 h
    · rw [uploadFile_eq_noAuth env st f p htk (by simpa using hao)] at h
      exact absurd h (by simp)
  · rw [uploadFile_eq_hasToken env st f p htk] at h ⊢
    exact uploadFileBody_some_hist env st f p 0 h

/-- C6 counterexample: the client holds a token and the remote rejects the
upload POST for authorization; `uploadFile` resolves `null` after a single
attempt with zero `authorize` calls — no re-authenticate-and-retry happens
at the point of use. -/
theorem uploadFile_no_reauth_cex :
    b2EnvAuthReject.uploadRejectedForAuth "f.bin" = true ∧
    (uploadFile b2EnvAuthReject stWithToken "f.bin" "/tmp/f.bin").result = none ∧
    (uploadFile b2EnvAuthReject stWithToken "f.bin" "/tmp/f.bin").authorizeCalls = 0 ∧
    (uploadFile b2EnvAuthReject stWithToken "f.bin" "/tmp/f.bin").uploadAttempts = 1 := by
  decide

/-- C6 amended: the client authenticates lazily — only when no session token
is held before the call — and never re-authenticates or retries after a
failed call: with a token in hand, `authorize` runs zero times and at most
one upload POST is attempted; a failure simply propagates as a `null`
resolution. -/
theorem uploadFile_no_retry (env : B2Env) (st : B2State) (f p : String)
    (htk : ¬ st.authorizationToken = "") :
    (uploadFile env st f p).authorizeCalls = 0 ∧
    (uploadFile env st f p).uploadAttempts ≤ 1 := by
  rw [uploadFile_eq_hasToken env st f p htk]
  exact ⟨uploadFileBody_authorizeCalls env st f p 0, uploadFileBody_attempts_le env st f p 0⟩

/-- C6 witness: with a held token and an authorization-rejecting remote,
zero authorize calls and at most one attempt. -/
theorem uploadFile_no_retry_witness :
    (uploadFile b2EnvAuthReject stWithToken "g.bin" "/tmp/g.bin").authorizeCalls = 0 ∧
    (uploadFile b2EnvAuthReject stWithToken "g.bin" "/tmp/g.bin").uploadAttempts ≤ 1 :=
  uploadFile_no_retry b2EnvAuthReject stWithToken "g.bin" "/tmp/g.bin" (by decide)

/-- C10 counterexample: on a fresh instance whose authentication fails,
`uploadFile` resolves `null` but records nothing — no `success = false`
entry appears under the file-name key. -/
theorem uploadFile_authFail_no_entry_cex :
    (uploadFile b2EnvAuthDown stFresh "g.bin" "/g.bin").result = none ∧
    getUploadHistory (uploadFile b2EnvAuthDown stFresh "g.bin" "/g.bin").state.uploadHistory "g.bin"
      = none := by
  decide

/-- C10 amended: `uploadFile` never rejects — every failure resolves `null`.
A failure after authentication (slot negotiation, file read, or the upload
POST) appends a `success = false` entry under the file-name key; but when the
call's own lazy authentication fails, it resolves `null` without appending
any history entry. -/
theorem uploadFile_null_on_failure (env : B2Env) (st : B2State) (f p : String)
    (h : (uploadFile env st f p).result = none) :
    (st.authorizationToken = "" ∧ env.authOk = false ∧
      (uploadFile env st f p).state.uploadHistory = st.uploadHistory) ∨
    histGet (uploadFile env st f p).state.uploadHistory f
      = some (((histGet st.uploadHistory f).getD []) ++ [failEntry env f]) := by
  by_cases htk : st.authorizationToken = ""
  · by_cases hao : env.authOk = true
    · rw [uploadFile_eq_freshAuth env st f p htk hao] at h ⊢
      exact Or.inr (uploadFileBody_none_hist env _ f p 1 h)
    · rw [uploadFile_eq_noAuth env st f p htk (by simpa using hao)]
      exact Or.inl ⟨htk, by simpa using hao, rfl⟩
  · rw [uploadFile_eq_hasToken env st f p htk] at h ⊢
    exact Or.inr (uploadFileBody_none_hist env st f p 0 h)

/-- C10 witness: a failed upload POST with a held token appends the failure
entry under the file-name key (instantiating the amended claim's
post-authentication arm). -/
theorem uploadFile_null_on_failure_witness :
    (stWithToken.authorizationToken = "" ∧ b2EnvAuthReject.authOk = false ∧
      (uploadFile b2EnvAuthReject stWithToken "h.bin" "/h.bin").state.uploadHistory
        = stWithToken.uploadHistory) ∨
    histGet (uploadFile b2EnvAuthReject stWithToken "h.bin" "/h.bin").state.uploadHistory "h.bin"
      = some (((histGet stWithToken.uploadHistory "h.bin").getD [])
          ++ [failEntry b2EnvAuthReject "h.bin"]) :=
  uploadFile_null_on_failure b2EnvAuthReject stWithToken "h.bin" "/h.bin" (by decide)

/-- C7 counterexample: the ledger is not append-only across operations — a
directory sync migrates the latest per-file entry and deletes the per-file
key, so an entry recorded earlier under `v/a.ts` (by an individual upload)
is gone from the ledger afterwards: the key maps to nothing and the old
entry was not moved into the prefix group either. -/
theorem ledger_removal_cex :
    getUploadHistory stWithOldEntry.uploadHistory "v/a.ts" = some [oldEntry] ∧
    getUploadHistory
      (uploadDirectoryToB2 b2EnvAllOk stWithOldEntry "local" ["a.ts"] "v").1.uploadHistory
      "v/a.ts" = none ∧
    ¬ oldEntry ∈ (getUploadHistory
      (uploadDirectoryToB2 b2EnvAllOk stWithOldEntry "local" ["a.ts"] "v").1.uploadHistory
      "v").getD [] := by
  decide

/-- C7 amended: `_logUpload(key, e)` itself is append-only — it appends `e`
to the key's entries (in insertion order, starting from the empty list when
the key is new) and leaves every other key untouched; `getUploadHistory`
returns the recorded entries in insertion order, or nothing (`undefined`)
for an unrecorded key.  Removal does occur, but only through
`uploadDirectoryToB2`'s migration (see the counterexample). -/
theorem logUpload_appends (h : UploadHistory) (k q : String) (e : LogEntry) :
    getUploadHistory (logUpload h k e) k
      = some ((getUploadHistory h k).getD [] ++ [e]) ∧
    (¬ q = k → getUploadHistory (logUpload h k e) q = getUploadHistory h q) :=
  ⟨histGet_logUpload_self h k e, fun hne => histGet_logUpload_ne h k e q hne⟩

/-- C7 witness: appending to a fresh key yields exactly that entry, and an
unrelated key stays unrecorded. -/
theorem logUpload_appends_witness :
    getUploadHistory (logUpload [] "k1" oldEntry) "k1"
      = some ((getUploadHistory ([] : UploadHistory) "k1").getD [] ++ [oldEntry]) ∧
    getUploadHistory (logUpload [] "k1" oldEntry) "k2"
      = getUploadHistory ([] : UploadHistory) "k2" :=
  ⟨(logUpload_appends [] "k1" "k2" oldEntry).1,
   (logUpload_appends [] "k1" "k2" oldEntry).2 (by decide)⟩

/-! ## Directory-sync lemmas -/

theorem dirUploadTask_hist_other (env : B2Env) (st : B2State)
    (localDirPath pfx rel q : String)
    (h1 : ¬ q = b2NameOf pfx rel) (h2 : ¬ q = pfx) :
    histGet (dirUploadTask env st localDirPath pfx rel).1.uploadHistory q
      = histGet st.uploadHistory q := by
  have hbase := uploadFile_hist_ne env st (b2NameOf pfx rel) (localDirPath ++ "/" ++ rel) q h1
  simp only [dirUploadTask]
  rcases hu : (uploadFile env st (b2NameOf pfx rel) (localDirPath ++ "/" ++ rel)).result
    with _ | info
  · simp only [hu]
    exact hbase
  · rcases hl : histGet (uploadFile env st (b2NameOf pfx rel)
        (localDirPath ++ "/" ++ rel)).state.uploadHistory (b2NameOf pfx rel) with _ | l
    · simp only [hu, hl]
      exact hbase
    · rcases he : l.getLast? with _ | e
      · simp only [hu, hl, he]
        exact hbase
      · simp only [hu, hl, he]
        rw [histGet_histDelete_ne _ _ _ h1, histGet_logUpload_ne _ _ _ _ h2,
            histGet_histSet_ne _ _ _ _ h1]
        exact hbase

theorem dirUploadTask_none (env : B2Env) (st : B2State) (localDirPath pfx rel : String)
    (hu : (uploadFile env st (b2NameOf pfx rel) (localDirPath ++ "/" ++ rel)).result = none) :
    dirUploadTask env st localDirPath pfx rel
      = ((uploadFile env st (b2NameOf pfx rel) (localDirPath ++ "/" ++ rel)).state,
         ⟨false, b2NameOf pfx rel, localDirPath ++ "/" ++ rel, none⟩) := by
  simp only [dirUploadTask, hu]

theorem dirUploadTask_some_fresh (env : B2Env) (st : B2State)
    (localDirPath pfx rel : String) (info : FileInfo)
    (hu : (uploadFile env st (b2NameOf pfx rel) (localDirPath ++ "/" ++ rel)).result = some info)
    (hfresh : histGet st.uploadHistory (b2NameOf pfx rel) = none) :
    dirUploadTask env st localDirPath pfx rel
      = ({ (uploadFile env st (b2NameOf pfx rel) (localDirPath ++ "/" ++ rel)).state with
            uploadHistory :=
              histDelete
                (logUpload
                  (histSet (uploadFile env st (b2NameOf pfx rel)
                      (localDirPath ++ "/" ++ rel)).state.uploadHistory
                    (b2NameOf pfx rel) [])
                  pfx (succEntry env (b2NameOf pfx rel) (localDirPath ++ "/" ++ rel)))
                (b2NameOf pfx rel) },
         ⟨true, b2NameOf pfx rel, localDirPath ++ "/" ++ rel, some info⟩) := by
  have hsome : (uploadFile env st (b2NameOf pfx rel)
      (localDirPath ++ "/" ++ rel)).result.isSome = true := by
    rw [hu]
    rfl
  have hself := uploadFile_some_hist env st (b2NameOf pfx rel)
    (localDirPath ++ "/" ++ rel) hsome
  rw [hfresh] at hself
  simp only [Option.getD_none, List.nil_append] at hself
  simp only [dirUploadTask, hu, hself, List.getLast?_singleton, List.dropLast_single]

theorem dirUploadTask_hist_pfx (env : B2Env) (st : B2State)
    (localDirPath pfx rel : String)
    (hfresh : histGet st.uploadHistory (b2NameOf pfx rel) = none)
    (hnp : ¬ pfx = b2NameOf pfx rel) :
    ((histGet (dirUploadTask env st localDirPath pfx rel).1.uploadHistory pfx).getD []).length
      = ((histGet st.uploadHistory pfx).getD []).length
        + (if (dirUploadTask env st localDirPath pfx rel).2.success = true then 1 else 0) := by
  have hbase := uploadFile_hist_ne env st (b2NameOf pfx rel) (localDirPath ++ "/" ++ rel) pfx hnp
  cases hu : (uploadFile env st (b2NameOf pfx rel) (localDirPath ++ "/" ++ rel)).result with
  | none =>
    rw [dirUploadTask_none env st localDirPath pfx rel hu]
    simp [hbase]
  | some info =>
    rw [dirUploadTask_some_fresh env st localDirPath pfx rel info hu hfresh]
    simp only []
    rw [histGet_histDelete_ne _ _ _ hnp, histGet_logUpload_self,
        histGet_histSet_ne _ _ _ _ hnp, hbase]
    simp

theorem uploadDirGo_length (env : B2Env) (localDirPath pfx : String) :
    ∀ (rels : List String) (st : B2State),
    (uploadDirGo env localDirPath pfx st rels).2.length = rels.length := by
  intro rels
  induction rels with
  | nil => intro st; rfl
  | cons rel rest ih =>
    intro st
    simp only [uploadDirGo, List.length_cons]
    rw [ih]

theorem length_filter_partition (l : List DirOutcome) :
    (l.filter (fun o => o.success)).length
      + (l.filter (fun o => !o.success)).length = l.length := by
  induction l with
  | nil => rfl
  | cons o t ih =>
    by_cases h : o.success <;> simp [List.filter_cons, h] <;> omega

theorem uploadDirGo_pfx_hist (env : B2Env) (localDirPath pfx : String) :
    ∀ (rels : List String) (st : B2State),
    (∀ rel ∈ rels, histGet st.uploadHistory (b2NameOf pfx rel) = none) →
    (∀ rel ∈ rels, ¬ pfx = b2NameOf pfx rel) →
    ((rels.map (b2NameOf pfx)).Nodup) →
    ((histGet (uploadDirGo env localDirPath pfx st rels).1.uploadHistory pfx).getD []).length
      = ((histGet st.uploadHistory pfx).getD []).length
        + ((uploadDirGo env localDirPath pfx st rels).2.filter (fun o => o.success)).length := by
  intro rels
  induction rels with
  | nil =>
    intro st _ _ _
    simp [uploadDirGo]
  | cons rel rest ih =>
    intro st hfresh hnp hnd
    have hfr := hfresh rel (List.mem_cons_self rel rest)
    have hnp1 := hnp rel (List.mem_cons_self rel rest)
    have hstep := dirUploadTask_hist_pfx env st localDirPath pfx rel hfr hnp1
    have hnd2 : (b2NameOf pfx rel) ∉ rest.map (b2NameOf pfx) ∧
        (rest.map (b2NameOf pfx)).Nodup := by
      rw [List.map_cons, List.nodup_cons] at hnd
      exact hnd
    have hne_head : ∀ r ∈ rest, ¬ b2NameOf pfx r = b2NameOf pfx rel := by
      intro r hrr heq
      exact hnd2.1 (heq ▸ List.mem_map_of_mem (b2NameOf pfx) hrr)
    have hfresh' : ∀ r ∈ rest,
        histGet (dirUploadTask env st localDirPath pfx rel).1.uploadHistory
          (b2NameOf pfx r) = none := by
      intro r hrr
      rw [dirUploadTask_hist_other env st localDirPath pfx rel _ (hne_head r hrr)
        (fun hh => hnp r (List.mem_cons_of_mem rel hrr) hh.symm)]
      exact hfresh r (List.mem_cons_of_mem rel hrr)
    have hrec := ih (dirUploadTask env st localDirPath pfx rel).1 hfresh'
      (fun r hrr => hnp r (List.mem_cons_of_mem rel hrr)) hnd2.2
    simp only [uploadDirGo]
    rw [hrec, hstep, List.filter_cons]
    by_cases hs : (dirUploadTask env st localDirPath pfx rel).2.success = true
    · rw [if_pos hs,
        if_pos (show (fun o => o.success) (dirUploadTask env st localDirPath pfx rel).2 = true
          from hs),
        List.length_cons]
      omega
    · rw [if_neg hs,
        if_neg (show ¬ (fun o => o.success) (dirUploadTask env st localDirPath pfx rel).2 = true
          from hs)]
      omega

/-- C4 counterexample: a directory sync of 5 files with one failed upload
(`v123/c` is rejected by the network).  The sync reports 4 successes and 1
failure, but the history returned for the prefix contains only 4 entries,
not 5: the failed task's ledger entry is never migrated into the prefix
group (it stays under its per-file key). -/
theorem uploadDirectoryToB2_history_cex :
    (uploadDirectoryToB2 b2EnvOneFail stWithToken "local" ["a", "b", "c", "d", "e"] "v123").2.success
      = false ∧
    (uploadDirectoryToB2 b2EnvOneFail stWithToken "local"
      ["a", "b", "c", "d", "e"] "v123").2.successfulUploads.length = 4 ∧
    (uploadDirectoryToB2 b2EnvOneFail stWithToken "local"
      ["a", "b", "c", "d", "e"] "v123").2.failedUploads.length = 1 ∧
    ((uploadDirectoryToB2 b2EnvOneFail stWithToken "local"
      ["a", "b", "c", "d", "e"] "v123").2.history.getD []).length = 4 ∧
    ¬ ((uploadDirectoryToB2 b2EnvOneFail stWithToken "local"
      ["a", "b", "c", "d", "e"] "v123").2.history.getD []).length = 5 := by
  decide

/-- C4 amended: only successful tasks' ledger entries are migrated into the
prefix group; a failed task's entry stays under its per-file key.  Under the
run's natural freshness conditions (distinct remote keys, none previously
recorded, prefix distinct from every task key), the history returned for the
prefix grows by exactly one entry per successful upload — so a sync of 5
files with 1 failure yields 4 entries under the prefix, not 5. -/
theorem uploadDirectoryToB2_history (env : B2Env) (st : B2State)
    (localDirPath : String) (relFiles : List String) (pfx : String)
    (hfresh : ∀ rel ∈ relFiles, histGet st.uploadHistory (b2NameOf pfx rel) = none)
    (hnp : ∀ rel ∈ relFiles, ¬ pfx = b2NameOf pfx rel)
    (hnd : (relFiles.map (b2NameOf pfx)).Nodup) :
    (((uploadDirectoryToB2 env st localDirPath relFiles pfx).2.history).getD []).length
      = ((getUploadHistory st.uploadHistory pfx).getD []).length
        + (uploadDirectoryToB2 env st localDirPath relFiles pfx).2.successfulUploads.length := by
  unfold uploadDirectoryToB2 getUploadHistory
  simp only [List.length_map]
  exact uploadDirGo_pfx_hist env localDirPath pfx relFiles st hfresh hnp hnd

/-- C4 witness: two fresh files, one failing; the prefix history holds
exactly the one successful outcome. -/
theorem uploadDirectoryToB2_history_witness :
    (((uploadDirectoryToB2 b2EnvOneFail stWithToken "local" ["c", "d"] "v123").2.history).getD
      []).length
      = ((getUploadHistory stWithToken.uploadHistory "v123").getD []).length
        + (uploadDirectoryToB2 b2EnvOneFail stWithToken "local"
            ["c", "d"] "v123").2.successfulUploads.length :=
  uploadDirectoryToB2_history b2EnvOneFail stWithToken "local" ["c", "d"] "v123"
    (by decide) (by decide) (by decide)

/-- C5: for every directory sync over N enumerated files, the result
partitions the N per-file outcomes exactly —
`successfulUploads.length + failedUploads.length = N` — and `success` is
true iff `failedUploads` is empty. -/
theorem uploadDirectoryToB2_partition (env : B2Env) (st : B2State)
    (localDirPath : String) (relFiles : List String) (pfx : String) :
    ((uploadDirectoryToB2 env st localDirPath relFiles pfx).2.successfulUploads.length
      + (uploadDirectoryToB2 env st localDirPath relFiles pfx).2.failedUploads.length
      = relFiles.length) ∧
    ((uploadDirectoryToB2 env st localDirPath relFiles pfx).2.success = true ↔
      (uploadDirectoryToB2 env st localDirPath relFiles pfx).2.failedUploads = []) := by
  unfold uploadDirectoryToB2
  constructor
  · simp only [List.length_map]
    rw [length_filter_partition, uploadDirGo_length]
  · constructor
    · intro hh
      have : ((uploadDirGo env localDirPath pfx st relFiles).2.filter
          (fun o => !o.success)).map (fun o => (o.file, o.localPath)) = [] := by
        apply List.length_eq_zero.mp
        simpa using hh
      simpa using this
    · intro hh
      simp only [beq_iff_eq, List.length_eq_zero]
      simpa using hh

/-- C5 witness: a concrete 3-file sync with one failure — 2 + 1 = 3 and
`success` is false since `failedUploads` is nonempty. -/
theorem uploadDirectoryToB2_partition_witness :
    ((uploadDirectoryToB2 b2EnvOneFail stWithToken "local"
        ["a", "b", "c"] "v123").2.successfulUploads.length
      + (uploadDirectoryToB2 b2EnvOneFail stWithToken "local"
          ["a", "b", "c"] "v123").2.failedUploads.length
      = (["a", "b", "c"] : List String).length) ∧
    ((uploadDirectoryToB2 b2EnvOneFail stWithToken "local" ["a", "b", "c"] "v123").2.success
        = true ↔
      (uploadDirectoryToB2 b2EnvOneFail stWithToken "local"
        ["a", "b", "c"] "v123").2.failedUploads = []) :=
  uploadDirectoryToB2_partition b2EnvOneFail stWithToken "local" ["a", "b", "c"] "v123"
